import Mathlib

/-!
Shallow embedding of `languagemodels/models.py`: the catalog of model
descriptors, the budget configuration (`set_max_ram` / `get_max_ram` /
`convert_to_gb`), the selector (`get_model_name`), and the cache/lifecycle
manager (`get_model`).

Python floats are modelled as exact rationals (`ℚ`); machine state (the
module globals `modelcache`, `max_ram`, `license_match`) is threaded as an
explicit `LMState` value; reads of `os.environ` are an explicit `Env`
value; exceptions are `Except` errors.  External collaborators
(`huggingface_hub`, `tokenizers`, `ctranslate2`) are modelled as abstract
constructors that record which construction path was used, plus the
load/unload capability behaviour documented in the source comments
("Encoder-only models can't be unloaded by ctranslate2").
-/

/-- Decidable equality on `Except`, so concrete runs of the embedded
functions can be checked by `decide`. -/
instance {ε α : Type} [DecidableEq ε] [DecidableEq α] : DecidableEq (Except ε α)
  | .error e, .error f =>
    match decEq e f with
    | .isTrue h => .isTrue (h ▸ rfl)
    | .isFalse h => .isFalse (fun hh => h (Except.error.inj hh))
  | .error _, .ok _ => .isFalse (fun hh => Except.noConfusion hh)
  | .ok _, .error _ => .isFalse (fun hh => Except.noConfusion hh)
  | .ok a, .ok b =>
    match decEq a b with
    | .isTrue h => .isTrue (h ▸ rfl)
    | .isFalse h => .isFalse (fun hh => h (Except.ok.inj hh))

/-- Decimal literals for `ℚ` through `mkRat`, so that concrete values of
the embedded functions reduce inside the kernel (the library's
`Rat.ofScientific` is deliberately irreducible).  Numerically identical
to the standard instance by `Rat.ofScientific_true_def` and
`Rat.ofScientific_false_def`. -/
instance (priority := 2000) : OfScientific ℚ where
  ofScientific m s e := if s then mkRat m (10 ^ e) else mkRat (m * 10 ^ e) 1

/-- Division on `ℚ` in a kernel-reducible form; equal to `·/·` by
`qdiv_eq_div` below. -/
def qdiv (a b : ℚ) : ℚ := Rat.divInt (a.num * b.den) (a.den * b.num)

/-- Multiplication on `ℚ` in a kernel-reducible form. -/
def qmul (a b : ℚ) : ℚ := mkRat (a.num * b.num) (a.den * b.den)

/-- Addition on `ℚ` in a kernel-reducible form. -/
def qadd (a b : ℚ) : ℚ := Rat.divInt (a.num * b.den + a.den * b.num) (a.den * b.den)

theorem qdiv_eq_div (a b : ℚ) : qdiv a b = a / b := (Rat.div_def' a b).symm

theorem qmul_eq_mul (a b : ℚ) : qmul a b = a * b := (Rat.mul_eq_mkRat a b).symm

theorem qadd_eq_add (a b : ℚ) : qadd a b = a + b := (Rat.add_num_den a b).symm

/-- Lowercasing, as `String.toLower` but by structural recursion over the
character list so that it reduces in the kernel. -/
def strLower (s : String) : String := ⟨s.data.map Char.toLower⟩

/-- Model of Python's builtin `float()` restricted to plain decimal
literals: an optional sign, then digits with an optional fractional part
(`"512"`, `".5"`, `"3.25"`, `"-2."`).  Exotic inputs accepted by the real
builtin (exponents, `inf`, `nan`, underscores, surrounding whitespace) are
outside the modelled subset.  Returns `none` where `float()` raises
`ValueError`. -/
def pyFloatDigits : List Char → Option ℕ
  | [] => some 0
  | c :: cs =>
    if c.isDigit then
      (pyFloatDigits cs).map (fun n => (c.toNat - 48) * 10 ^ cs.length + n)
    else
      none

def pyFloatAllDigits : List Char → Bool
  | [] => true
  | c :: cs => c.isDigit && pyFloatAllDigits cs

def pyFloatCore (cs : List Char) : Option ℚ :=
  match cs.span (· ≠ '.') with
  | (intPart, []) =>
    -- no decimal point: a nonempty run of digits
    if intPart.isEmpty then none
    else (pyFloatDigits intPart).map (fun n => (n : ℚ))
  | (intPart, _dot :: fracPart) =>
    -- one decimal point; a second one is invalid
    if fracPart.any (· = '.') then none
    else if intPart.isEmpty && fracPart.isEmpty then none
    else if pyFloatAllDigits intPart && pyFloatAllDigits fracPart then
      match pyFloatDigits intPart, pyFloatDigits fracPart with
      | some i, some f => some (qadd (mkRat i 1) (mkRat f (10 ^ fracPart.length)))
      | _, _ => none
    else none

def pyFloat (s : String) : Option ℚ :=
  match s.data with
  | '-' :: rest => (pyFloatCore rest).map (fun q => -q)
  | '+' :: rest => pyFloatCore rest
  | cs => pyFloatCore cs

/-- Errors raised by the budget-string parser: `valueError` models a
`float()` parse failure, `indexError` models `space[-1]` on an empty
string. -/
inductive SizeErr where
  | valueError
  | indexError
deriving DecidableEq, Repr

/-- The argument of `convert_to_gb` / `set_max_ram`: Python passes either
a number (`int`/`float`) or a string. -/
inductive SizeVal where
  | num (q : ℚ)
  | str (s : String)
deriving DecidableEq, Repr

/-- Model of Python's `str.rstrip("b")`: drop every trailing `'b'`. -/
def rstripB (s : String) : String :=
  ⟨(s.data.reverse.dropWhile (· == 'b')).reverse⟩

/-- `convert_to_gb` from the source: numbers pass through unchanged;
strings are lowercased, trailing `'b'`s are stripped, then a trailing
`'g'` keeps the value in gigabytes and a trailing `'m'` multiplies by
`2 ^ (-10)`; otherwise the whole string is parsed as a number. -/
def convert_to_gb : SizeVal → Except SizeErr ℚ
  | .num q => .ok q
  | .str s =>
    let t := rstripB (strLower s)
    match t.data.getLast? with
    | none => .error .indexError
    | some c =>
      if c == 'g' then
        match pyFloat ⟨t.data.dropLast⟩ with
        | some q => .ok (qmul q 1)
        | none => .error .valueError
      else if c == 'm' then
        -- the multiplier dict entry for m is the float 2 ** -10
        match pyFloat ⟨t.data.dropLast⟩ with
        | some q => .ok (qmul q (mkRat 1 1024))
        | none => .error .valueError
      else
        match pyFloat t with
        | some q => .ok q
        | none => .error .valueError

/-- One entry of the `models` list: a Python dict with the fields below.
The embedding-purpose entry has no `datasets` key, modelled by the `[]`
default. -/
structure Model where
  name : String
  tuning : String
  datasets : List String := []
  params : ℚ
  quantization : String
  architecture : String
  license : String
deriving DecidableEq, Repr

/-- The shipped catalog, in the source's priority order. -/
def models : List Model := [
  { name := "flan-alpaca-xl-ct2-int8",
    tuning := "instruct",
    datasets := ["c4", "flan", "alpaca"],
    params := 3e9,
    quantization := "int8",
    architecture := "encoder-decoder-transformer",
    license := "cc-by-nc-4.0" },
  { name := "flan-alpaca-gpt4-xl-ct2-int8",
    tuning := "instruct",
    datasets := ["c4", "flan", "gpt4-alpaca"],
    params := 3e9,
    quantization := "int8",
    architecture := "encoder-decoder-transformer",
    license := "cc-by-nc-4.0" },
  { name := "flan-t5-xl-ct2-int8",
    tuning := "instruct",
    datasets := ["c4", "flan"],
    params := 3e9,
    quantization := "int8",
    architecture := "encoder-decoder-transformer",
    license := "apache-2.0" },
  { name := "fastchat-t5-3b-v1.0-ct2-int8",
    tuning := "instruct",
    datasets := ["c4", "flan", "sharegpt"],
    params := 3e9,
    quantization := "int8",
    architecture := "encoder-decoder-transformer",
    license := "apache-2.0" },
  { name := "LaMini-Flan-T5-783M-ct2-int8",
    tuning := "instruct",
    datasets := ["c4", "flan", "lamini"],
    params := 783e6,
    quantization := "int8",
    architecture := "encoder-decoder-transformer",
    license := "cc-by-nc-4.0" },
  { name := "flan-t5-large-ct2-int8",
    tuning := "instruct",
    datasets := ["c4", "flan"],
    params := 783e6,
    quantization := "int8",
    architecture := "encoder-decoder-transformer",
    license := "apache-2.0" },
  { name := "LaMini-Flan-T5-248M-ct2-int8",
    tuning := "instruct",
    datasets := ["c4", "flan", "lamini"],
    params := 248e6,
    quantization := "int8",
    architecture := "encoder-decoder-transformer",
    license := "cc-by-nc-4.0" },
  { name := "flan-alpaca-base-ct2-int8",
    tuning := "instruct",
    datasets := ["c4", "flan", "alpaca"],
    params := 248e6,
    quantization := "int8",
    architecture := "encoder-decoder-transformer",
    license := "cc-by-nc-4.0" },
  { name := "flan-t5-base-ct2-int8",
    tuning := "instruct",
    datasets := ["c4", "flan"],
    params := 248e6,
    quantization := "int8",
    architecture := "encoder-decoder-transformer",
    license := "apache-2.0" },
  { name := "LaMini-Flan-T5-77M-ct2-int8",
    tuning := "instruct",
    datasets := ["c4", "flan", "lamini"],
    params := 77e6,
    quantization := "int8",
    architecture := "encoder-decoder-transformer",
    license := "cc-by-nc-4.0" },
  { name := "flan-t5-small-ct2-int8",
    tuning := "instruct",
    datasets := ["c4", "flan"],
    params := 77e6,
    quantization := "int8",
    architecture := "encoder-decoder-transformer",
    license := "apache-2.0" },
  { name := "LaMini-GPT-774M-ct2-int8",
    tuning := "instruct",
    datasets := ["webtext", "lamini"],
    params := 774e6,
    quantization := "int8",
    architecture := "decoder-only-transformer",
    license := "mit" },
  { name := "LaMini-GPT-124M-ct2-int8",
    tuning := "instruct",
    datasets := ["webtext", "lamini"],
    params := 124e6,
    quantization := "int8",
    architecture := "decoder-only-transformer",
    license := "mit" },
  { name := "all-MiniLM-L6-v2-ct2-int8",
    tuning := "embedding",
    params := 22e6,
    quantization := "int8",
    architecture := "encoder-only-transformer",
    license := "apache-2.0" }
]

/-- Model of Python's `re.match(pat, s)` truthiness for patterns built
from literal characters and the Kleene star on the preceding character
(the only regex feature the license filters in this repository use, e.g.
`"apache*"`).  `re.match` is anchored at the start and succeeds on any
matching prefix.  The fuel argument exceeds every possible number of
recursive steps, keeping the recursion structural. -/
def reMatchFuel : ℕ → List Char → List Char → Bool
  | 0, _, _ => false
  | _ + 1, [], _ => true
  | f + 1, c :: '*' :: ps, s =>
    reMatchFuel f ps s ||
      (match s with
       | [] => false
       | x :: xs => x == c && reMatchFuel f (c :: '*' :: ps) xs)
  | f + 1, c :: ps, s =>
    match s with
    | [] => false
    | x :: xs => x == c && reMatchFuel f ps xs

def re_match (pat s : String) : Bool :=
  reMatchFuel ((pat.length + 1) * (s.length + 1) + 1) pat.data s.data

/-- The license check in `get_model_name`:
`not license_match or re.match(license_match, model["license"])`.
A `none` or empty filter is falsy and accepts everything. -/
def licOk (license_match : Option String) (license : String) : Bool :=
  match license_match with
  | none => true
  | some pat => pat == "" || re_match pat license

/-- Errors out of the selector: `assertionError` models the per-descriptor
`assert model["quantization"] == "int8"`, `noModelFound` models
`ModelException("No valid model found for {model_type}")` carrying the
requested purpose. -/
inductive SelectErr where
  | assertionError
  | noModelFound (model_type : String)
deriving DecidableEq, Repr

/-- The catalog scan inside `get_model_name`: assert the quantization,
compute `memsize`, `sizefit`, `licensematch`, and return the first
descriptor's name where tuning, size and license all match. -/
def scanModels (model_type : String) (max_ram : ℚ) (license_match : Option String) :
    List Model → Except SelectErr String
  | [] => .error (.noModelFound model_type)
  | m :: rest =>
    if m.quantization != "int8" then .error .assertionError
    else
      let memsize := qdiv m.params 1e9
      let sizefit := decide (memsize < max_ram)
      let licensematch := licOk license_match m.license
      if m.tuning == model_type && sizefit && licensematch then .ok m.name
      else scanModels model_type max_ram license_match rest

/-- The three matching conditions of the selector, as one predicate:
requested tuning, `params / 1e9 < max_ram` (strict), and the license
filter. -/
def modelFits (model_type : String) (max_ram : ℚ) (license_match : Option String)
    (m : Model) : Bool :=
  m.tuning == model_type && decide (qdiv m.params 1e9 < max_ram) && licOk license_match m.license

/-- `get_model_name` from the source.  `pinned` is the
`LANGUAGEMODELS_INSTRUCT_MODEL` environment variable (`none` when unset;
an empty string is falsy and ignored, matching Python truthiness). -/
def get_model_name (pinned : Option String) (model_type : String) (max_ram : ℚ)
    (license_match : Option String) : Except SelectErr String :=
  match pinned with
  | some p =>
    if p != "" && model_type == "instruct" then .ok p
    else scanModels model_type max_ram license_match models
  | none => scanModels model_type max_ram license_match models

/-- Which construction path `get_model` takes for a model name: the
`ctranslate2.Encoder`, `ctranslate2.Generator` or `ctranslate2.Translator`
branch (each with its own artifact files and tokenizer constructor). -/
inductive Kind where
  | encoder
  | generator
  | translator
deriving DecidableEq, Repr

/-- Substring containment on char lists, modelling Python's `in`. -/
def subLi (needle : List Char) : List Char → Bool
  | [] => needle.isEmpty
  | c :: cs => needle.isPrefixOf (c :: cs) || subLi needle cs

def strContainsSub (hay needle : String) : Bool :=
  subLi needle.data hay.data

/-- The branch condition structure of `get_model`'s construction code:
`"minilm" in model_name.lower()` chooses the Encoder path,
`"gpt" in model_name.lower()` the Generator path, anything else the
Translator path. -/
def dispatchKind (model_name : String) : Kind :=
  if strContainsSub (strLower model_name) "minilm" then .encoder
  else if strContainsSub (strLower model_name) "gpt" then .generator
  else .translator

/-- Modelled from the spec: the construction path prescribed by a
descriptor's `architecture` tag — encoder-only gets the Encoder path,
decoder-only the Generator path, encoder-decoder the Translator path.
This is the spec-side definition a refinement claim compares against the
source-side `dispatchKind`. -/
def archKind (architecture : String) : Kind :=
  if architecture == "encoder-only-transformer" then .encoder
  else if architecture == "decoder-only-transformer" then .generator
  else .translator

/-- A constructed tokenizer handle (external `tokenizers` library),
recorded by which model it was built for, which construction path was
used, and whether padding/truncation remain enabled (the Encoder path
calls `no_padding()` / `no_truncation()`). -/
structure Tok where
  built_for : String
  path : Kind
  padding : Bool
  truncation : Bool
deriving DecidableEq, Repr

/-- A constructed `ctranslate2` runtime model handle: its kind and
whether its weights are currently resident (`load_model` /
`unload_model` toggle this in place). -/
structure Handle where
  kind : Kind
  loaded : Bool
deriving DecidableEq, Repr

/-- Python exceptions that cross the collaborator boundary in
`get_model`: `attributeError` models `AttributeError` (a method missing
on the object, including any method on `None`); `otherError` stands for
every other exception. -/
inductive PyErr where
  | attributeError
  | otherError
deriving DecidableEq, Repr

/-- `modelcache` values: the `(tokenizer, model)` tuple; the model slot
is `None` after a tokenizer-only load. -/
structure Entry where
  tok : Tok
  model : Option Handle
deriving DecidableEq, Repr

/-- `handle.unload_model()`: `ctranslate2` Encoders have no such method
(AttributeError); Generators and Translators release their weights. -/
def unload_model : Handle → Except PyErr Handle
  | ⟨.encoder, _⟩ => .error .attributeError
  | ⟨k, _⟩ => .ok ⟨k, false⟩

/-- `handle.load_model()`: same capability split as `unload_model`. -/
def load_model : Handle → Except PyErr Handle
  | ⟨.encoder, _⟩ => .error .attributeError
  | ⟨k, _⟩ => .ok ⟨k, true⟩

/-- `slot.unload_model()` where the slot may be `None` (tokenizer-only
entry): calling any method on `None` raises AttributeError. -/
def slotUnload : Option Handle → Except PyErr (Option Handle)
  | none => .error .attributeError
  | some h => (unload_model h).map some

def slotLoad : Option Handle → Except PyErr (Option Handle)
  | none => .error .attributeError
  | some h => (load_model h).map some

/-- `try: ... except AttributeError: pass` — catches exactly
`AttributeError`, leaving the original value; every other exception
propagates. -/
def catchAttr {α : Type} (r : Except PyErr α) (orig : α) : Except PyErr α :=
  match r with
  | .error .attributeError => .ok orig
  | r => r

def dictLookup (c : List (String × Entry)) (k : String) : Option Entry :=
  (c.find? (fun p => p.1 == k)).map (fun p => p.2)

/-- Python dict assignment `c[k] = v`: replace in place when the key is
present, otherwise append. -/
def dictInsert : List (String × Entry) → String → Entry → List (String × Entry)
  | [], k, v => [(k, v)]
  | (k', v') :: rest, k, v =>
    if k' == k then (k, v) :: rest else (k', v') :: dictInsert rest k v

/-- The eviction pass of `get_model`: for every cached entry whose key
differs from the resolved name, call `unload_model()` under
`try/except AttributeError`. -/
def evictPass (model_name : String) :
    List (String × Entry) → Except PyErr (List (String × Entry))
  | [] => .ok []
  | (k, e) :: rest => do
    let e' ←
      if k == model_name then pure e
      else do
        let m' ← catchAttr (slotUnload e.model) e.model
        pure { e with model := m' }
    let rest' ← evictPass model_name rest
    pure ((k, e') :: rest')

/-- The construction branch of `get_model` for an uncached name: fetch
artifacts, build the tokenizer for the branch selected by name-substring
dispatch, and construct the runtime model unless `tokenizer_only`. -/
def buildEntry (model_name : String) (tokenizer_only : Bool) : Entry :=
  match dispatchKind model_name with
  | .encoder =>
    { tok := ⟨model_name, .encoder, false, false⟩,
      model := if tokenizer_only then none else some ⟨.encoder, true⟩ }
  | .generator =>
    { tok := ⟨model_name, .generator, true, true⟩,
      model := if tokenizer_only then none else some ⟨.generator, true⟩ }
  | .translator =>
    { tok := ⟨model_name, .translator, true, true⟩,
      model := if tokenizer_only then none else some ⟨.translator, true⟩ }

/-- The environment variables the module reads. -/
structure Env where
  size : Option String
  pinned : Option String
deriving DecidableEq, Repr

/-- The module globals: `max_ram` (initialized to `512` at import),
`license_match` (initialized from the environment), and `modelcache`
(initialized empty). -/
structure LMState where
  max_ram : ℚ
  license_match : Option String
  modelcache : List (String × Entry)
deriving DecidableEq, Repr

def initState (licenseEnv : Option String) : LMState :=
  { max_ram := 512, license_match := licenseEnv, modelcache := [] }

/-- `get_max_ram` from the source: the global `max_ram` when truthy,
else the `LANGUAGEMODELS_SIZE` tiers, else that value parsed as a size
string, else `0.40`. -/
def get_max_ram (st : LMState) (env : Env) : Except SizeErr ℚ :=
  if st.max_ram ≠ 0 then .ok st.max_ram
  else
    match env.size with
    | none => .ok 0.40
    | some e =>
      if e == "" then .ok 0.40
      else
        let e := strLower e
        if e == "small" then .ok 0.2
        else if e == "base" then .ok 0.40
        else if e == "large" then .ok 1.0
        else if e == "xl" then .ok 4.0
        else if e == "xxl" then .ok 16.0
        else convert_to_gb (.str e)

/-- `set_max_ram` from the source: parse, store in the global, return
the parsed value. -/
def set_max_ram (value : SizeVal) (st : LMState) : Except SizeErr (ℚ × LMState) :=
  match convert_to_gb value with
  | .ok q => .ok (q, { st with max_ram := q })
  | .error e => .error e

/-- `require_model_license` from the source. -/
def require_model_license (match_re : Option String) (st : LMState) : LMState :=
  { st with license_match := match_re }

inductive LMErr where
  | size (e : SizeErr)
  | select (e : SelectErr)
  | py (e : PyErr)
deriving DecidableEq, Repr

/-- `get_model` from the source: resolve the name, run the eviction pass
when `get_max_ram() < 4` and a full model is wanted, then either
construct and cache a new `(tokenizer, model)` entry or return (after a
best-effort `load_model()`) the cached one.  The in-place mutation of
handle objects is modelled by writing the updated entry back into the
cache, which is what the shared references amount to. -/
def get_model (env : Env) (st : LMState) (model_type : String) (tokenizer_only : Bool) :
    Except LMErr (LMState × Entry) :=
  match get_max_ram st env with
  | .error e => .error (.size e)
  | .ok ram =>
    match get_model_name env.pinned model_type ram st.license_match with
    | .error e => .error (.select e)
    | .ok model_name =>
      match
        (if ram < 4 ∧ tokenizer_only = false then evictPass model_name st.modelcache
         else .ok st.modelcache) with
      | .error e => .error (.py e)
      | .ok cache1 =>
        match dictLookup cache1 model_name with
        | none =>
          let entry := buildEntry model_name tokenizer_only
          .ok ({ st with modelcache := dictInsert cache1 model_name entry }, entry)
        | some e =>
          if tokenizer_only then .ok ({ st with modelcache := cache1 }, e)
          else
            match catchAttr (slotLoad e.model) e.model with
            | .error pe => .error (.py pe)
            | .ok m' =>
              let e' := { e with model := m' }
              .ok ({ st with modelcache := dictInsert cache1 model_name e' }, e')

/-! ### Selector lemmas -/

theorem modelFits_iff (mt : String) (ram : ℚ) (lic : Option String) (m : Model) :
    modelFits mt ram lic m = true ↔
      m.tuning = mt ∧ qdiv m.params 1e9 < ram ∧ licOk lic m.license = true := by
  simp [modelFits, Bool.and_eq_true, beq_iff_eq, decide_eq_true_iff, and_assoc]

theorem modelFits_mono (mt : String) (lic : Option String) {b1 b2 : ℚ} (hb : b1 ≤ b2)
    (m : Model) (h : modelFits mt b1 lic m = true) : modelFits mt b2 lic m = true := by
  obtain ⟨h1, h2, h3⟩ := (modelFits_iff mt b1 lic m).1 h
  exact (modelFits_iff mt b2 lic m).2 ⟨h1, lt_of_lt_of_le h2 hb, h3⟩

/-- The catalog scan is the first-match search: on an all-int8 list it
returns the name of the first descriptor satisfying `modelFits`, and the
no-model error when none does. -/
theorem scanModels_eq_find (mt : String) (ram : ℚ) (lic : Option String) (l : List Model)
    (h : ∀ m ∈ l, m.quantization = "int8") :
    scanModels mt ram lic l =
      match l.find? (modelFits mt ram lic) with
      | some m => .ok m.name
      | none => .error (.noModelFound mt) := by
  induction l with
  | nil => rfl
  | cons m rest ih =>
    have hq : m.quantization = "int8" := h m (by simp)
    have hrest := ih (fun x hx => h x (by simp [hx]))
    cases hfit : modelFits mt ram lic m with
    | true =>
      rw [List.find?_cons_of_pos _ hfit]
      simp only [scanModels, hq, bne_self_eq_false, Bool.false_eq_true, if_false]
      have hguard : (m.tuning == mt && decide (qdiv m.params 1e9 < ram)
          && licOk lic m.license) = true := hfit
      simp [hguard]
    | false =>
      rw [List.find?_cons_of_neg _ (by simp [hfit])]
      simp only [scanModels, hq, bne_self_eq_false, Bool.false_eq_true, if_false]
      have hguard : (m.tuning == mt && decide (qdiv m.params 1e9 < ram)
          && licOk lic m.license) = false := hfit
      simp [hguard, hrest]

theorem models_all_int8 : ∀ m ∈ models, m.quantization = "int8" := by decide

/-- First-match search is monotone in the budget: with a larger budget
the scan stops at the same or an earlier position, whose descriptor then
has at least as many parameters. -/
theorem find_modelFits_mono (mt : String) (lic : Option String) {b1 b2 : ℚ} (hb : b1 ≤ b2)
    (l : List Model) : ∀ (m1 m2 : Model),
      l.find? (modelFits mt b1 lic) = some m1 →
      l.find? (modelFits mt b2 lic) = some m2 →
      m1.params ≤ m2.params := by
  induction l with
  | nil => intro m1 m2 h1 _; simp [List.find?] at h1
  | cons m rest ih =>
    intro m1 m2 h1 h2
    cases hf2 : modelFits mt b2 lic m with
    | false =>
      have hf1 : modelFits mt b1 lic m = false := by
        cases hf1 : modelFits mt b1 lic m with
        | true => exact absurd (modelFits_mono mt lic hb m hf1) (by simp [hf2])
        | false => rfl
      rw [List.find?_cons_of_neg _ (by simp [hf1])] at h1
      rw [List.find?_cons_of_neg _ (by simp [hf2])] at h2
      exact ih m1 m2 h1 h2
    | true =>
      rw [List.find?_cons_of_pos _ hf2] at h2
      injection h2 with h2
      subst h2
      cases hf1 : modelFits mt b1 lic m with
      | true =>
        rw [List.find?_cons_of_pos _ hf1] at h1
        injection h1 with h1
        subst h1
        exact le_refl _
      | false =>
        rw [List.find?_cons_of_neg _ (by simp [hf1])] at h1
        have h1fit : modelFits mt b1 lic m1 = true := List.find?_some h1
        obtain ⟨ht, _, hlic⟩ := (modelFits_iff mt b2 lic m).1 hf2
        obtain ⟨_, hsz1, _⟩ := (modelFits_iff mt b1 lic m1).1 h1fit
        have hnlt : ¬ qdiv m.params 1e9 < b1 := by
          intro hlt
          have : modelFits mt b1 lic m = true :=
            (modelFits_iff mt b1 lic m).2 ⟨ht, hlt, hlic⟩
          simp [this] at hf1
        have hchain : qdiv m1.params 1e9 < qdiv m.params 1e9 :=
          lt_of_lt_of_le hsz1 (not_lt.1 hnlt)
        rw [qdiv_eq_div, qdiv_eq_div] at hchain
        have h9 : (0 : ℚ) < 1e9 := by decide
        exact le_of_lt ((div_lt_div_iff_of_pos_right h9).1 hchain)

/-! ### Claims about the selector -/

/-- C1: with the pinned-name override absent, whenever some catalog
descriptor matches, `get_model_name` returns the name of the earliest
descriptor in the priority-ordered `models` list satisfying all three
conditions (requested purpose, `params / 1e9` strictly below the budget,
license filter empty or matched); in particular the budget-1.0
`"apache*"` scenario selects `flan-t5-large-ct2-int8`. -/
theorem C1_selector_first_match (model_type : String) (budget : ℚ)
    (license_match : Option String) (m : Model)
    (h : models.find? (modelFits model_type budget license_match) = some m) :
    get_model_name none model_type budget license_match = .ok m.name ∧
    get_model_name none "instruct" 1.0 (some "apache*") = .ok "flan-t5-large-ct2-int8" := by
  constructor
  · show scanModels model_type budget license_match models = .ok m.name
    rw [scanModels_eq_find _ _ _ _ models_all_int8, h]
  · decide

theorem C1_selector_first_match_witness :
    get_model_name none "embedding" 0.40 none = .ok "all-MiniLM-L6-v2-ct2-int8" ∧
    get_model_name none "instruct" 1.0 (some "apache*") = .ok "flan-t5-large-ct2-int8" :=
  C1_selector_first_match "embedding" 0.40 none
    { name := "all-MiniLM-L6-v2-ct2-int8", tuning := "embedding", params := 22e6,
      quantization := "int8", architecture := "encoder-only-transformer",
      license := "apache-2.0" } (by decide)

/-- C5: with the pinned-name override absent, `get_model_name` fails with
the no-model error exactly when no catalog descriptor satisfies the
purpose, strict size and license conditions; in particular an instruct
request under a 0.01 GB budget fails.  The selector reads no mutable
state in the source and is embedded as a pure function of its arguments,
so a failing call leaves every module global unchanged. -/
theorem C5_no_model_found_iff :
    (∀ (model_type : String) (budget : ℚ) (license_match : Option String),
      get_model_name none model_type budget license_match
          = .error (.noModelFound model_type) ↔
        models.find? (modelFits model_type budget license_match) = none) ∧
    get_model_name none "instruct" 0.01 none = .error (.noModelFound "instruct") := by
  constructor
  · intro mt b lic
    show scanModels mt b lic models = _ ↔ _
    rw [scanModels_eq_find mt b lic models models_all_int8]
    cases models.find? (modelFits mt b lic) with
    | none => simp
    | some m => simp
  · decide

/-- C9: for a fixed purpose and license filter, raising the budget never
lowers the parameter count of the selected descriptor: if the scan
selects `m1` at budget `b1` and `m2` at budget `b2 ≥ b1`, then
`m2.params ≥ m1.params`. -/
theorem C9_budget_monotone (model_type : String) (license_match : Option String)
    (b1 b2 : ℚ) (hb : b1 ≤ b2) (m1 m2 : Model)
    (h1 : models.find? (modelFits model_type b1 license_match) = some m1)
    (h2 : models.find? (modelFits model_type b2 license_match) = some m2) :
    m1.params ≤ m2.params ∧
    get_model_name none model_type b1 license_match = .ok m1.name ∧
    get_model_name none model_type b2 license_match = .ok m2.name := by
  refine ⟨find_modelFits_mono model_type license_match hb models m1 m2 h1 h2, ?_, ?_⟩
  · show scanModels model_type b1 license_match models = .ok m1.name
    rw [scanModels_eq_find _ _ _ _ models_all_int8, h1]
  · show scanModels model_type b2 license_match models = .ok m2.name
    rw [scanModels_eq_find _ _ _ _ models_all_int8, h2]

theorem C9_budget_monotone_witness :
    (248e6 : ℚ) ≤ 783e6 ∧
    get_model_name none "instruct" 0.40 none = .ok "LaMini-Flan-T5-248M-ct2-int8" ∧
    get_model_name none "instruct" 1.0 none = .ok "LaMini-Flan-T5-783M-ct2-int8" :=
  C9_budget_monotone "instruct" none 0.40 1.0 (by decide)
    { name := "LaMini-Flan-T5-248M-ct2-int8", tuning := "instruct",
      datasets := ["c4", "flan", "lamini"], params := 248e6, quantization := "int8",
      architecture := "encoder-decoder-transformer", license := "cc-by-nc-4.0" }
    { name := "LaMini-Flan-T5-783M-ct2-int8", tuning := "instruct",
      datasets := ["c4", "flan", "lamini"], params := 783e6, quantization := "int8",
      architecture := "encoder-decoder-transformer", license := "cc-by-nc-4.0" }
    (by decide) (by decide)

/-- C10: every descriptor in the shipped catalog is quantized int8, so
the per-descriptor assertion inside the selector never fires: for every
pinned override, purpose, budget and license filter, `get_model_name`
never returns the assertion error. -/
theorem C10_assert_never_fires (pinned : Option String) (model_type : String)
    (budget : ℚ) (license_match : Option String) :
    get_model_name pinned model_type budget license_match ≠ .error .assertionError := by
  have hscan : scanModels model_type budget license_match models
      ≠ .error .assertionError := by
    rw [scanModels_eq_find _ _ _ _ models_all_int8]
    cases models.find? (modelFits model_type budget license_match) with
    | none => simp
    | some m => simp
  cases pinned with
  | none => exact hscan
  | some p =>
    cases hc : (p != "" && model_type == "instruct") with
    | true => simp [get_model_name, hc]
    | false => simpa [get_model_name, hc] using hscan

/-! ### Cache/lifecycle lemmas -/

/-- The outcome of a best-effort `unload_model()` on a cache slot: a
`None` slot and an Encoder handle are left untouched (the AttributeError
is swallowed), other handles lose their resident weights. -/
def forceUnload : Option Handle → Option Handle
  | none => none
  | some ⟨.encoder, b⟩ => some ⟨.encoder, b⟩
  | some ⟨k, _⟩ => some ⟨k, false⟩

/-- The outcome of a best-effort `load_model()` on a cache slot. -/
def forceLoad : Option Handle → Option Handle
  | none => none
  | some ⟨.encoder, b⟩ => some ⟨.encoder, b⟩
  | some ⟨k, _⟩ => some ⟨k, true⟩

def unloadEntry (e : Entry) : Entry := { e with model := forceUnload e.model }

/-- The eviction pass as a total function on the cache. -/
def evictedCache (model_name : String) (c : List (String × Entry)) :
    List (String × Entry) :=
  c.map (fun p => if p.1 == model_name then p else (p.1, unloadEntry p.2))

def cacheKeys (c : List (String × Entry)) : List String := c.map Prod.fst

def keysNodup (c : List (String × Entry)) : Prop := (cacheKeys c).Nodup

theorem catchAttr_slotUnload (s : Option Handle) :
    catchAttr (slotUnload s) s = .ok (forceUnload s) := by
  rcases s with _ | ⟨k, b⟩
  · rfl
  · cases k <;> rfl

theorem catchAttr_slotLoad (s : Option Handle) :
    catchAttr (slotLoad s) s = .ok (forceLoad s) := by
  rcases s with _ | ⟨k, b⟩
  · rfl
  · cases k <;> rfl

theorem evictPass_ok (n : String) (c : List (String × Entry)) :
    evictPass n c = .ok (evictedCache n c) := by
  induction c with
  | nil => rfl
  | cons p rest ih =>
    obtain ⟨k, e⟩ := p
    cases hk : (k == n) with
    | true =>
      have hk' : k = n := by simpa using hk
      simp only [evictPass, hk, ih, evictedCache, List.map_cons, hk', beq_self_eq_true,
        if_true]
      rfl
    | false =>
      have hk' : ¬ k = n := by simpa using hk
      simp only [evictPass, hk, catchAttr_slotUnload, ih, evictedCache, List.map_cons]
      simp only [Bool.false_eq_true, if_false]
      rfl

theorem dictLookup_insert (c : List (String × Entry)) (n : String) (v : Entry)
    (k : String) :
    dictLookup (dictInsert c n v) k = if k = n then some v else dictLookup c k := by
  induction c with
  | nil =>
    by_cases h : k = n
    · subst h; simp [dictInsert, dictLookup, List.find?]
    · simp [dictInsert, dictLookup, List.find?, h,
        (by simpa using Ne.symm h : (n == k) = false)]
  | cons p rest ih =>
    obtain ⟨k', v'⟩ := p
    by_cases h1 : k' = n
    · subst h1
      by_cases h2 : k = k'
      · subst h2; simp [dictInsert, dictLookup, List.find?]
      · simp [dictInsert, dictLookup, List.find?, h2,
          (by simpa using Ne.symm h2 : (k' == k) = false)]
    · have hb1 : (k' == n) = false := by simpa using h1
      by_cases h2 : k = k'
      · subst h2
        simp [dictInsert, dictLookup, List.find?, hb1, h1]
      · simp [dictInsert, dictLookup, List.find?, hb1,
          (by simpa using Ne.symm h2 : (k' == k) = false)] at ih ⊢
        exact ih

theorem dictLookup_evicted_ne (n : String) (c : List (String × Entry)) (k : String)
    (hk : k ≠ n) :
    dictLookup (evictedCache n c) k = (dictLookup c k).map unloadEntry := by
  induction c with
  | nil => rfl
  | cons p rest ih =>
    obtain ⟨k', e⟩ := p
    by_cases h1 : k' = n
    · subst h1
      have hne : (k' == k) = false := by simpa using fun hh => hk (hh.symm)
      simp [evictedCache, dictLookup, List.find?, hne] at ih ⊢
      exact ih
    · have hb1 : (k' == n) = false := by simpa using h1
      by_cases h2 : k' = k
      · subst h2
        simp [evictedCache, dictLookup, List.find?, hb1]
      · have hne : (k' == k) = false := by simpa using h2
        simp [evictedCache, dictLookup, List.find?, hb1, hne] at ih ⊢
        exact ih

theorem dictLookup_evicted_self (n : String) (c : List (String × Entry)) :
    dictLookup (evictedCache n c) n = dictLookup c n := by
  induction c with
  | nil => rfl
  | cons p rest ih =>
    obtain ⟨k', e⟩ := p
    by_cases h1 : k' = n
    · subst h1
      simp [evictedCache, dictLookup, List.find?]
    · have hb1 : (k' == n) = false := by simpa using h1
      simp [evictedCache, dictLookup, List.find?, hb1] at ih ⊢
      exact ih

theorem cacheKeys_evicted (n : String) (c : List (String × Entry)) :
    cacheKeys (evictedCache n c) = cacheKeys c := by
  induction c with
  | nil => rfl
  | cons p rest ih =>
    obtain ⟨k', e⟩ := p
    simp only [evictedCache, List.map_cons, cacheKeys] at ih ⊢
    rw [ih]
    by_cases h1 : (k' == n) = true
    · rw [if_pos h1]
    · rw [if_neg h1]

theorem cacheKeys_insert (c : List (String × Entry)) (n : String) (v : Entry) :
    cacheKeys (dictInsert c n v) =
      if n ∈ cacheKeys c then cacheKeys c else cacheKeys c ++ [n] := by
  induction c with
  | nil => simp [dictInsert, cacheKeys]
  | cons p rest ih =>
    obtain ⟨k', v'⟩ := p
    by_cases h1 : k' = n
    · subst h1
      simp [dictInsert, cacheKeys]
    · have hb1 : (k' == n) = false := by simpa using h1
      simp only [dictInsert, hb1, Bool.false_eq_true, if_false, cacheKeys, List.map_cons]
      have ih' : List.map Prod.fst (dictInsert rest n v) =
          if n ∈ List.map Prod.fst rest then List.map Prod.fst rest
          else List.map Prod.fst rest ++ [n] := ih
      rw [ih']
      by_cases h2 : n ∈ List.map Prod.fst rest
      · simp [h2, Ne.symm h1]
      · simp [h2, Ne.symm h1]

theorem keysNodup_insert (c : List (String × Entry)) (n : String) (v : Entry)
    (h : keysNodup c) : keysNodup (dictInsert c n v) := by
  unfold keysNodup at h ⊢
  rw [cacheKeys_insert]
  by_cases h2 : n ∈ cacheKeys c
  · simpa [h2] using h
  · simp only [h2, if_false]
    exact h.append (List.nodup_singleton n)
      (by simpa [List.disjoint_singleton] using h2)

/-- `get_model` in closed form: the eviction pass and the best-effort
reload are total (their AttributeErrors are swallowed), so the call is
the pure state transformation below. -/
theorem get_model_eq (env : Env) (st : LMState) (model_type : String)
    (tokenizer_only : Bool) :
    get_model env st model_type tokenizer_only =
      match get_max_ram st env with
      | .error e => .error (.size e)
      | .ok ram =>
        match get_model_name env.pinned model_type ram st.license_match with
        | .error e => .error (.select e)
        | .ok model_name =>
          let cache1 := if ram < 4 ∧ tokenizer_only = false
                        then evictedCache model_name st.modelcache
                        else st.modelcache
          match dictLookup cache1 model_name with
          | none =>
            .ok ({ st with modelcache :=
                     dictInsert cache1 model_name (buildEntry model_name tokenizer_only) },
                 buildEntry model_name tokenizer_only)
          | some e =>
            if tokenizer_only then .ok ({ st with modelcache := cache1 }, e)
            else
              .ok ({ st with modelcache :=
                       dictInsert cache1 model_name { e with model := forceLoad e.model } },
                   { e with model := forceLoad e.model }) := by
  unfold get_model
  cases get_max_ram st env with
  | error e => rfl
  | ok ram =>
    dsimp only
    cases get_model_name env.pinned model_type ram st.license_match with
    | error e => rfl
    | ok model_name =>
      dsimp only
      by_cases hc : ram < 4 ∧ tokenizer_only = false
      · rw [if_pos hc, if_pos hc, evictPass_ok]
        dsimp only
        cases dictLookup (evictedCache model_name st.modelcache) model_name with
        | none => rfl
        | some e =>
          dsimp only
          cases tokenizer_only with
          | true => rfl
          | false =>
            rw [catchAttr_slotLoad]
      · rw [if_neg hc, if_neg hc]
        dsimp only
        cases dictLookup st.modelcache model_name with
        | none => rfl
        | some e =>
          dsimp only
          cases tokenizer_only with
          | true => rfl
          | false =>
            rw [catchAttr_slotLoad]

/-! ### Claims about the cache/lifecycle manager -/

/-- C6: in a `get_model` call, the eviction pass runs on every cached
entry whose key differs from the resolved name exactly when
`get_max_ram() < 4` and a full model is requested (otherwise those
entries are untouched); the AttributeErrors of unsupported
`unload_model`/`load_model` (including on an absent handle) are swallowed
so the call never surfaces a Python-level error, while `catchAttr`
propagates every other exception unchanged. -/
theorem C6_eviction_guard (env : Env) (st : LMState) (model_type : String)
    (tokenizer_only : Bool) :
    (∀ pe : PyErr, get_model env st model_type tokenizer_only ≠ .error (.py pe)) ∧
    (∀ (ram : ℚ) (model_name : String) (st' : LMState) (ent : Entry),
      get_max_ram st env = .ok ram →
      get_model_name env.pinned model_type ram st.license_match = .ok model_name →
      get_model env st model_type tokenizer_only = .ok (st', ent) →
      ∀ k, k ≠ model_name →
        dictLookup st'.modelcache k =
          (dictLookup st.modelcache k).map
            (fun e => if ram < 4 ∧ tokenizer_only = false then unloadEntry e else e)) ∧
    (∀ d : Option Handle, catchAttr (.error .otherError) d = .error .otherError) := by
  refine ⟨?_, ?_, fun d => rfl⟩
  · intro pe
    rw [get_model_eq]
    cases get_max_ram st env with
    | error e => simp
    | ok ram =>
      try dsimp only
      cases get_model_name env.pinned model_type ram st.license_match with
      | error e => simp
      | ok model_name =>
        try dsimp only
        cases dictLookup (if ram < 4 ∧ tokenizer_only = false
            then evictedCache model_name st.modelcache else st.modelcache) model_name with
        | none => simp
        | some e =>
          try dsimp only
          cases tokenizer_only with
          | true => simp
          | false => simp
  · intro ram model_name st' ent hram hname hrun k hk
    rw [get_model_eq, hram] at hrun
    try dsimp only at hrun
    rw [hname] at hrun
    try dsimp only at hrun
    by_cases hc : ram < 4 ∧ tokenizer_only = false
    · rw [if_pos hc] at hrun
      cases hlk : dictLookup (evictedCache model_name st.modelcache) model_name with
      | none =>
        rw [hlk] at hrun
        try dsimp only at hrun
        injection hrun with hpair
        injection hpair with hst hent
        subst hst
        try dsimp only
        rw [dictLookup_insert, if_neg hk, dictLookup_evicted_ne _ _ _ hk]
        simp [hc]
      | some e =>
        rw [hlk] at hrun
        try dsimp only at hrun
        rw [hc.2] at hrun
        try dsimp only at hrun
        injection hrun with hpair
        injection hpair with hst hent
        subst hst
        try dsimp only
        rw [dictLookup_insert, if_neg hk, dictLookup_evicted_ne _ _ _ hk]
        simp [hc]
    · rw [if_neg hc] at hrun
      have hfn : (fun e : Entry =>
          if ram < 4 ∧ tokenizer_only = false then unloadEntry e else e) =
            fun e => e := by
        funext e
        rw [if_neg hc]
      rw [hfn, Option.map_id']
      cases hlk : dictLookup st.modelcache model_name with
      | none =>
        rw [hlk] at hrun
        try dsimp only at hrun
        injection hrun with hpair
        injection hpair with hst hent
        subst hst
        try dsimp only
        rw [dictLookup_insert, if_neg hk]
      | some e =>
        rw [hlk] at hrun
        try dsimp only at hrun
        cases ht : tokenizer_only with
        | true =>
          rw [ht] at hrun
          try dsimp only at hrun
          injection hrun with hpair
          injection hpair with hst hent
          subst hst
          rfl
        | false =>
          rw [ht] at hrun
          try dsimp only at hrun
          injection hrun with hpair
          injection hpair with hst hent
          subst hst
          try dsimp only
          rw [dictLookup_insert, if_neg hk]

def entW : Entry :=
  { tok := ⟨"LaMini-Flan-T5-248M-ct2-int8", .translator, true, true⟩,
    model := some ⟨.translator, true⟩ }

def stW : LMState :=
  { max_ram := 0.5, license_match := none,
    modelcache := [("x", { tok := ⟨"x", .translator, true, true⟩,
                           model := some ⟨.translator, true⟩ })] }

def stW' : LMState :=
  { max_ram := 0.5, license_match := none,
    modelcache := [("x", { tok := ⟨"x", .translator, true, true⟩,
                           model := some ⟨.translator, false⟩ }),
                   ("LaMini-Flan-T5-248M-ct2-int8", entW)] }

theorem C6_eviction_guard_witness :
    dictLookup stW'.modelcache "x" =
      (dictLookup stW.modelcache "x").map
        (fun e => if (0.5 : ℚ) < 4 ∧ (false = false) then unloadEntry e else e) :=
  (C6_eviction_guard ⟨none, none⟩ stW "instruct" false).2.1 0.5
    "LaMini-Flan-T5-248M-ct2-int8" stW' entW (by decide) (by decide) (by decide)
    "x" (by decide)

/-- C8: a successful `get_model` call preserves distinctness of cache
keys (at most one entry per name, as for a Python dict), never removes
an entry (every previously cached name is still cached), and leaves the
resolved name mapped to exactly the returned `(tokenizer, model)`
pair. -/
theorem C8_cache_monotone (env : Env) (st : LMState) (model_type : String)
    (tokenizer_only : Bool) (st' : LMState) (ent : Entry)
    (h : get_model env st model_type tokenizer_only = .ok (st', ent)) :
    (keysNodup st.modelcache → keysNodup st'.modelcache) ∧
    (∀ k, (dictLookup st.modelcache k).isSome → (dictLookup st'.modelcache k).isSome) ∧
    (∃ ram model_name, get_max_ram st env = .ok ram ∧
      get_model_name env.pinned model_type ram st.license_match = .ok model_name ∧
      dictLookup st'.modelcache model_name = some ent) := by
  rw [get_model_eq] at h
  cases hram : get_max_ram st env with
  | error e => rw [hram] at h; simp at h
  | ok ram =>
    rw [hram] at h
    dsimp only at h
    cases hname : get_model_name env.pinned model_type ram st.license_match with
    | error e => rw [hname] at h; simp at h
    | ok model_name =>
      rw [hname] at h
      dsimp only at h
      set c1 := if ram < 4 ∧ tokenizer_only = false
                then evictedCache model_name st.modelcache else st.modelcache with hc1
      have hA : keysNodup st.modelcache → keysNodup c1 := by
        rw [hc1]
        by_cases hc : ram < 4 ∧ tokenizer_only = false
        · rw [if_pos hc]
          intro hnd
          unfold keysNodup
          rw [cacheKeys_evicted]
          exact hnd
        · rw [if_neg hc]
          exact id
      have hB : ∀ k, (dictLookup st.modelcache k).isSome → (dictLookup c1 k).isSome := by
        rw [hc1]
        by_cases hc : ram < 4 ∧ tokenizer_only = false
        · rw [if_pos hc]
          intro k hks
          by_cases hkn : k = model_name
          · subst hkn
            rw [dictLookup_evicted_self]
            exact hks
          · rw [dictLookup_evicted_ne _ _ _ hkn]
            cases hx : dictLookup st.modelcache k with
            | none => rw [hx] at hks; simp at hks
            | some v => simp
        · rw [if_neg hc]
          exact fun k => id
      cases hlk : dictLookup c1 model_name with
      | none =>
        rw [hlk] at h
        try dsimp only at h
        injection h with hpair
        injection hpair with hst hent
        subst hst
        subst hent
        refine ⟨?_, ?_, ⟨ram, model_name, rfl, hname, ?_⟩⟩
        · intro hnd
          exact keysNodup_insert _ _ _ (hA hnd)
        · intro k hks
          try dsimp only
          rw [dictLookup_insert]
          by_cases hkn : k = model_name
          · rw [if_pos hkn]; simp
          · rw [if_neg hkn]; exact hB k hks
        · try dsimp only
          rw [dictLookup_insert, if_pos rfl]
      | some e =>
        rw [hlk] at h
        try dsimp only at h
        cases ht : tokenizer_only with
        | true =>
          rw [ht] at h
          try dsimp only at h
          injection h with hpair
          injection hpair with hst hent
          subst hst
          subst hent
          refine ⟨?_, ?_, ⟨ram, model_name, rfl, hname, ?_⟩⟩
          · exact hA
          · exact hB
          · exact hlk
        | false =>
          rw [ht] at h
          try dsimp only at h
          injection h with hpair
          injection hpair with hst hent
          subst hst
          subst hent
          refine ⟨?_, ?_, ⟨ram, model_name, rfl, hname, ?_⟩⟩
          · intro hnd
            exact keysNodup_insert _ _ _ (hA hnd)
          · intro k hks
            try dsimp only
            rw [dictLookup_insert]
            by_cases hkn : k = model_name
            · rw [if_pos hkn]; simp
            · rw [if_neg hkn]; exact hB k hks
          · try dsimp only
            rw [dictLookup_insert, if_pos rfl]

def stE : LMState :=
  { max_ram := 512, license_match := none,
    modelcache := [("all-MiniLM-L6-v2-ct2-int8",
      { tok := ⟨"all-MiniLM-L6-v2-ct2-int8", .encoder, false, false⟩,
        model := some ⟨.encoder, true⟩ })] }

def entE : Entry :=
  { tok := ⟨"all-MiniLM-L6-v2-ct2-int8", .encoder, false, false⟩,
    model := some ⟨.encoder, true⟩ }

theorem C8_cache_monotone_witness :
    (keysNodup (initState none).modelcache → keysNodup stE.modelcache) ∧
    (∀ k, (dictLookup (initState none).modelcache k).isSome →
      (dictLookup stE.modelcache k).isSome) ∧
    (∃ ram model_name, get_max_ram (initState none) ⟨none, none⟩ = .ok ram ∧
      get_model_name none "embedding" ram none = .ok model_name ∧
      dictLookup stE.modelcache model_name = some entE) :=
  C8_cache_monotone ⟨none, none⟩ (initState none) "embedding" false stE entE
    (by decide)

/-! ### Claims about the budget configuration and construction dispatch -/

/-- C2: the module initializes the `max_ram` global to `512`, a truthy
value, so `get_max_ram` returns `512` whatever the environment says:
with no `set_max_ram` call and no size environment variable the budget
is `512` GB, not the documented default of `0.40` GB — the tier,
raw-string and default branches are unreachable from the initial
state. -/
theorem C2_initial_budget_is_512 :
    (initState none).max_ram = 512 ∧
    (∀ env : Env, get_max_ram (initState none) env = .ok 512) ∧
    (512 : ℚ) ≠ 0.40 := by
  refine ⟨rfl, ?_, by decide⟩
  intro env
  rw [get_max_ram, if_pos (by decide : ((initState none).max_ram ≠ 0))]
  rfl

/-- C3: a tokenizer-only load caches `(tokenizer, None)`; the later full
request for the same resolved name finds the entry, its
`load_model()` on `None` raises AttributeError which the source
swallows, and the call returns the entry with the model handle still
absent — the model is never constructed. -/
theorem C3_tokenizer_only_stays_unloaded :
    ((do
      let r1 ← get_model ⟨none, none⟩ (initState none) "instruct" true
      get_model ⟨none, none⟩ r1.1 "instruct" false :
        Except LMErr (LMState × Entry)).map
          (fun r => (r.2.tok.built_for, r.2.model)))
      = .ok ("flan-alpaca-xl-ct2-int8", none) := by decide

/-- C4 counterexample: the claim fails on the shipped catalog.  The
second catalog entry is `flan-alpaca-gpt4-xl-ct2-int8`, an
encoder-decoder model whose architecture tag prescribes the Translator
path, but its name contains `"gpt"`, so `get_model`'s name-substring
dispatch takes the Generator (decoder-only) path for it. -/
theorem C4_counterexample_gpt4_name :
    models[1]?.map (fun m => (m.name, m.architecture))
        = some ("flan-alpaca-gpt4-xl-ct2-int8", "encoder-decoder-transformer") ∧
    dispatchKind "flan-alpaca-gpt4-xl-ct2-int8" = Kind.generator ∧
    archKind "encoder-decoder-transformer" = Kind.translator ∧
    dispatchKind "flan-alpaca-gpt4-xl-ct2-int8"
        ≠ archKind "encoder-decoder-transformer" := by decide

/-- C4 amended: for every catalog descriptor except
`flan-alpaca-gpt4-xl-ct2-int8`, the construction path chosen by
case-insensitive name-substring matching coincides with the path
prescribed by the descriptor's architecture tag. -/
theorem C4_dispatch_matches_architecture (m : Model) (hm : m ∈ models)
    (hne : m.name ≠ "flan-alpaca-gpt4-xl-ct2-int8") :
    dispatchKind m.name = archKind m.architecture := by
  revert hne
  revert hm
  revert m
  decide

theorem C4_dispatch_matches_architecture_witness :
    dispatchKind "flan-t5-xl-ct2-int8" = archKind "encoder-decoder-transformer" :=
  C4_dispatch_matches_architecture
    { name := "flan-t5-xl-ct2-int8", tuning := "instruct", datasets := ["c4", "flan"],
      params := 3e9, quantization := "int8",
      architecture := "encoder-decoder-transformer", license := "apache-2.0" }
    (by decide) (by decide)

/-! ### Claims about size parsing -/

/-- Modelled from the spec: a size string is valid when, after
case-lowering, it is a number followed by one of the recognized
suffixes; the recognized suffixes are exactly the empty suffix, `g`,
`gb`, `m` and `mb`. -/
def specSizeValid (s : String) : Bool :=
  ["", "g", "gb", "m", "mb"].any (fun suf =>
    suf.data.isSuffixOf (strLower s).data &&
      (pyFloat ⟨(strLower s).data.take ((strLower s).data.length - suf.data.length)⟩).isSome)

/-- The amended validity predicate: after case-lowering, strip every
trailing `'b'`, then allow an optional single `g` or `m` unit letter in
front of the stripped tail, and require what remains to parse as a
number.  Equivalently, the recognized suffix is `(g|m)? b*`, not just
the five spec suffixes. -/
def amendedSizeValid (s : String) : Bool :=
  match (strLower s).data.reverse.dropWhile (· == 'b') with
  | [] => false
  | c :: rest =>
    if c == 'g' || c == 'm' then (pyFloat ⟨rest.reverse⟩).isSome
    else (pyFloat ⟨(c :: rest).reverse⟩).isSome

def isOkB {ε α : Type} : Except ε α → Bool
  | .ok _ => true
  | .error _ => false

/-- `convert_to_gb` succeeds on a string exactly when the amended
validity predicate accepts it. -/
theorem convert_ok_iff_amended (s : String) :
    isOkB (convert_to_gb (.str s)) = amendedSizeValid s := by
  unfold convert_to_gb amendedSizeValid
  dsimp only
  have hdata : (rstripB (strLower s)).data =
      ((strLower s).data.reverse.dropWhile (· == 'b')).reverse := rfl
  rw [hdata]
  cases hr : (strLower s).data.reverse.dropWhile (· == 'b') with
  | nil => rfl
  | cons c rest =>
    rw [List.reverse_cons, List.getLast?_concat, List.dropLast_concat]
    dsimp only
    by_cases hg : c = 'g'
    · subst hg
      simp only [beq_self_eq_true, if_true, Bool.true_or]
      cases pyFloat ⟨rest.reverse⟩ <;> rfl
    · by_cases hm : c = 'm'
      · subst hm
        have hgb : ('m' == 'g') = false := by decide
        simp only [hgb, Bool.false_eq_true, if_false, beq_self_eq_true, Bool.or_true,
          if_true]
        cases pyFloat ⟨rest.reverse⟩ <;> rfl
      · have hgb : (c == 'g') = false := by simpa using hg
        have hmb : (c == 'm') = false := by simpa using hm
        simp only [hgb, hmb, Bool.false_eq_true, if_false, Bool.or_self]
        have ht : rstripB (strLower s) = ⟨(c :: rest).reverse⟩ := by
          apply String.ext
          rw [hdata, hr]
        rw [ht]
        cases pyFloat ⟨(c :: rest).reverse⟩ <;> rfl

/-- C7 counterexample: `"5b"` is not a number followed by a recognized
suffix (`b` alone is not among `g`, `gb`, `m`, `mb`), yet
`convert_to_gb` accepts it and returns 5.0, because the source strips
every trailing `'b'` before looking at the unit letter. -/
theorem C7_counterexample_bare_b_suffix :
    specSizeValid "5b" = false ∧ convert_to_gb (.str "5b") = .ok 5 := by decide

/-- C7 amended: `set_max_ram`/`convert_to_gb` accept a raw number
(gigabytes) or a string with an optional case-insensitive unit suffix
where the suffix is an optional `g` (gigabytes) or `m` (1/1024
gigabytes) followed by any run of trailing `b` characters — not only
the five suffixes the spec lists — parse `"4G"` to 4.0, `"256mb"` and
`"256M"` to 0.25, `".5"` to 0.5 and numeric 16 to 16.0, store and
return the parsed value, and fail on exactly the strings outside the
amended grammar. -/
theorem C7_size_parsing_amended :
    convert_to_gb (.num 16) = .ok 16 ∧
    convert_to_gb (.str "4G") = .ok 4 ∧
    convert_to_gb (.str "256mb") = .ok 0.25 ∧
    convert_to_gb (.str "256M") = .ok 0.25 ∧
    convert_to_gb (.str ".5") = .ok 0.5 ∧
    (∀ st : LMState, set_max_ram (.str "4G") st = .ok (4, { st with max_ram := 4 })) ∧
    (∀ s : String, isOkB (convert_to_gb (.str s)) = amendedSizeValid s) := by
  refine ⟨by decide, by decide, by decide, by decide, by decide, ?_, convert_ok_iff_amended⟩
  intro st
  rfl
